import Mathlib

/-!
Verification of `getpak/raster.py` (classes `Raster` and `GRS`) against its
natural-language specification.

The Python source is shallowly embedded below:
* `GRS.metadata` (filename → metadata dict) becomes `GRS_metadata`, an
  executable function returning `Except MetaError ProductMetadata`.
  `os.path.basename` becomes `pyBasename`; `str.split('_')` becomes `pySplit`;
  `datetime.strptime(s, '%Y%m%dT%H%M%S')` becomes `strptime_YmdTHMS`, which
  mirrors CPython's `_strptime` machinery for this fixed format string:
  the format compiles to the regular expression
  `(\d\d\d\d)(1[0-2]|0[1-9]|[1-9])(3[0-1]|[1-2]\d|0[1-9]|[1-9]| [1-9])T(2[0-3]|[0-1]\d|\d)([0-5]\d|\d)(6[0-1]|[0-5]\d|\d)`
  (compiled with IGNORECASE, so the literal matches 'T' or 't'), matched as a
  prefix with leftmost/backtracking semantics, followed by a check that the
  whole input was consumed, followed by `datetime(...)` range validation.
  Digit classes are modelled over ASCII digits.
* The I/O orchestration of `Raster.array2tiff` and `Raster.reproj` (GDAL and
  rasterio are external collaborators) is embedded as call traces: the GDAL
  calls `array2tiff` issues, the per-band `reproject` calls `reproj` issues,
  and a small statement language recording how each function acquires and
  releases raster file handles.
-/

/-! ## Characters and digits -/

def digitVal (c : Char) : Nat := c.toNat - 48

def digitChar (n : Nat) : Char := Char.ofNat (48 + n)

/-! ## CPython `_strptime` regex fragments for the format `%Y%m%dT%H%M%S`

Each `..Alts` function returns, in the order the regex engine tries them, the
alternatives of one group: the parsed integer value together with the rest of
the input after the group. -/

/-- Group `%Y`, regex `\d\d\d\d` (deterministic, exactly four digits). -/
def yParse : List Char → Option (Nat × List Char)
  | a :: b :: c :: d :: rest =>
    if a.isDigit ∧ b.isDigit ∧ c.isDigit ∧ d.isDigit then
      some (1000 * digitVal a + 100 * digitVal b + 10 * digitVal c + digitVal d, rest)
    else none
  | _ => none

/-- Group `%m`, regex `1[0-2]|0[1-9]|[1-9]`. -/
def mAlts : List Char → List (Nat × List Char)
  | a :: b :: rest =>
    (if a = '1' ∧ '0' ≤ b ∧ b ≤ '2' then [(10 + digitVal b, rest)] else []) ++
    (if a = '0' ∧ '1' ≤ b ∧ b ≤ '9' then [(digitVal b, rest)] else []) ++
    (if '1' ≤ a ∧ a ≤ '9' then [(digitVal a, b :: rest)] else [])
  | [a] => if '1' ≤ a ∧ a ≤ '9' then [(digitVal a, [])] else []
  | [] => []

/-- Group `%d`, regex `3[0-1]|[1-2]\d|0[1-9]|[1-9]| [1-9]` (the last,
space-padded-day alternative is in CPython's `_strptime.py` "to make %c
from ANSI C work"). -/
def dAlts : List Char → List (Nat × List Char)
  | a :: b :: rest =>
    (if a = '3' ∧ '0' ≤ b ∧ b ≤ '1' then [(30 + digitVal b, rest)] else []) ++
    (if ('1' ≤ a ∧ a ≤ '2') ∧ b.isDigit then [(10 * digitVal a + digitVal b, rest)] else []) ++
    (if a = '0' ∧ '1' ≤ b ∧ b ≤ '9' then [(digitVal b, rest)] else []) ++
    (if '1' ≤ a ∧ a ≤ '9' then [(digitVal a, b :: rest)] else []) ++
    (if a = ' ' ∧ '1' ≤ b ∧ b ≤ '9' then [(digitVal b, rest)] else [])
  | [a] => if '1' ≤ a ∧ a ≤ '9' then [(digitVal a, [])] else []
  | [] => []

/-- Group `%H`, regex `2[0-3]|[0-1]\d|\d`. -/
def hAlts : List Char → List (Nat × List Char)
  | a :: b :: rest =>
    (if a = '2' ∧ '0' ≤ b ∧ b ≤ '3' then [(20 + digitVal b, rest)] else []) ++
    (if ('0' ≤ a ∧ a ≤ '1') ∧ b.isDigit then [(10 * digitVal a + digitVal b, rest)] else []) ++
    (if a.isDigit then [(digitVal a, b :: rest)] else [])
  | [a] => if a.isDigit then [(digitVal a, [])] else []
  | [] => []

/-- Group `%M`, regex `[0-5]\d|\d`. -/
def minAlts : List Char → List (Nat × List Char)
  | a :: b :: rest =>
    (if ('0' ≤ a ∧ a ≤ '5') ∧ b.isDigit then [(10 * digitVal a + digitVal b, rest)] else []) ++
    (if a.isDigit then [(digitVal a, b :: rest)] else [])
  | [a] => if a.isDigit then [(digitVal a, [])] else []
  | [] => []

/-- Group `%S`, regex `6[0-1]|[0-5]\d|\d`. -/
def sAlts : List Char → List (Nat × List Char)
  | a :: b :: rest =>
    (if a = '6' ∧ '0' ≤ b ∧ b ≤ '1' then [(60 + digitVal b, rest)] else []) ++
    (if ('0' ≤ a ∧ a ≤ '5') ∧ b.isDigit then [(10 * digitVal a + digitVal b, rest)] else []) ++
    (if a.isDigit then [(digitVal a, b :: rest)] else [])
  | [a] => if a.isDigit then [(digitVal a, [])] else []
  | [] => []

/-- Leftmost/backtracking search for the `%H%M%S` tail of the pattern:
first hour/minute/second group choice (in regex order) that lets the whole
remaining pattern match, returning the values and the unconsumed input. -/
def timeFirst (s4 : List Char) : Option (Nat × Nat × Nat × List Char) :=
  (hAlts s4).findSome? fun hs =>
    (minAlts hs.2).findSome? fun ms =>
      (sAlts ms.2).findSome? fun ss => some (hs.1, ms.1, ss.1, ss.2)

/-- The literal `T` of the format (IGNORECASE: matches `T` or `t`),
followed by the `%H%M%S` tail. -/
def afterDT : List Char → Option (Nat × Nat × Nat × List Char)
  | c :: s4 => if c = 'T' ∨ c = 't' then timeFirst s4 else none
  | [] => none

/-- Leftmost/backtracking search for `%m%dT%H%M%S` after the year:
the first month/day group choice under which the rest of the pattern matches. -/
def mdFirst (s1 : List Char) : Option (Nat × Nat × Nat × Nat × Nat × List Char) :=
  (mAlts s1).findSome? fun ms =>
    (dAlts ms.2).findSome? fun ds =>
      (afterDT ds.2).map fun r => (ms.1, ds.1, r.1, r.2.1, r.2.2.1, r.2.2.2)

/-! ## `datetime` construction -/

/-- Result of a successful `datetime.strptime`: a Python `datetime` value. -/
structure PyDate where
  year : Nat
  month : Nat
  day : Nat
  hour : Nat
  minute : Nat
  second : Nat
deriving DecidableEq, Repr

/-- Month lengths as used by `datetime` (proleptic Gregorian calendar). -/
def daysInMonth (y m : Nat) : Nat :=
  if m = 2 then
    (if y % 4 = 0 ∧ (y % 100 ≠ 0 ∨ y % 400 = 0) then 29 else 28)
  else if m = 4 ∨ m = 6 ∨ m = 9 ∨ m = 11 then 30 else 31

/-- The range checks performed by the `datetime(...)` constructor. -/
def datetimeValid (y m d h mi s : Nat) : Prop :=
  1 ≤ y ∧ y ≤ 9999 ∧ 1 ≤ m ∧ m ≤ 12 ∧ 1 ≤ d ∧ d ≤ daysInMonth y m ∧
    h ≤ 23 ∧ mi ≤ 59 ∧ s ≤ 59

instance (y m d h mi s : Nat) : Decidable (datetimeValid y m d h mi s) := by
  unfold datetimeValid; infer_instance

/-- `datetime(y, m, d, h, mi, s)`: succeeds under the constructor's range
checks, raises `ValueError` (here: `none`) otherwise. -/
def mkValidDatetime (y m d h mi s : Nat) : Option PyDate :=
  if datetimeValid y m d h mi s then some ⟨y, m, d, h, mi, s⟩ else none

/-- `datetime.strptime(s, '%Y%m%dT%H%M%S')`: match the compiled regex against
a prefix of `s` (leftmost/backtracking); fail if there is no match or if the
first match does not consume all of `s`; otherwise build the `datetime`. -/
def strptime_YmdTHMS (s : String) : Option PyDate :=
  match yParse s.data with
  | none => none
  | some (y, s1) =>
    match mdFirst s1 with
    | none => none
    | some (m, d, h, mi, sec, rest) =>
      if rest = [] then mkValidDatetime y m d h mi sec else none

/-! ## Python string helpers used by `GRS.metadata` -/

/-- Auxiliary for `str.split(sep)`: accumulate the current token (reversed). -/
def pySplitAux (sep : Char) : List Char → List Char → List (List Char)
  | [], acc => [acc.reverse]
  | c :: rest, acc =>
    if c = sep then acc.reverse :: pySplitAux sep rest []
    else pySplitAux sep rest (c :: acc)

/-- Python `str.split(sep)` for a one-character separator:
`''.split('_') = ['']`, `'a__b'.split('_') = ['a', '', 'b']`. -/
def pySplit (sep : Char) (s : String) : List String :=
  (pySplitAux sep s.data []).map List.asString

/-- POSIX `os.path.basename`: everything after the last `'/'`. -/
def pyBasename (p : String) : String :=
  (pySplit '/' p).getLastD ""

/-- Python `f"{n:02d}"` for a nonnegative `n`: the decimal representation,
left-padded with `'0'` to a minimum width of two. -/
def py02d (n : Nat) : String :=
  if n < 10 then "0" ++ toString n else toString n

/-! ## `GRS.metadata` -/

/-- The metadata dict built by `GRS.metadata`, with its fixed keys as fields. -/
structure ProductMetadata where
  input_file : String
  basename : String
  mission : String
  prod_lvl : String
  str_date : String
  pydate : PyDate
  year : String
  month : String
  day : String
  baseline_algo_version : String
  relative_orbit : String
  tile : String
  product_discriminator : String
  cloud_cover : String
  grs_ver : String
deriving DecidableEq, Repr

/-- The two `ValueError` sites in `GRS.metadata`: the 9-way unpacking of
`basefile.split('_')` and the `datetime.strptime` call. -/
inductive MetaError where
  | formatError
  | dateParseError
deriving DecidableEq, Repr

/-- Body of `GRS.metadata` after `basefile = os.path.basename(grs_file_entry)`:
split on `'_'`, unpack exactly nine tokens (else `ValueError`), parse the
third token as a date (else `ValueError`), then assemble the dict. -/
def GRS_metadataCore (input basefile : String) : Except MetaError ProductMetadata :=
  match pySplit '_' basefile with
  | [mission, proc_level, date_n_time, proc_ver, r_orbit, tile, prod_disc, cc, ver] =>
    match strptime_YmdTHMS date_n_time with
    | none => Except.error MetaError.dateParseError
    | some file_event_date =>
      Except.ok {
        input_file := input
        basename := basefile
        mission := mission
        prod_lvl := proc_level
        str_date := date_n_time
        pydate := file_event_date
        year := py02d file_event_date.year
        month := py02d file_event_date.month
        day := py02d file_event_date.day
        baseline_algo_version := proc_ver
        relative_orbit := r_orbit
        tile := tile
        product_discriminator := prod_disc
        cloud_cover := cc
        grs_ver := ver }
  | _ => Except.error MetaError.formatError

/-- `GRS.metadata(grs_file_entry)`. -/
def GRS_metadata (grs_file_entry : String) : Except MetaError ProductMetadata :=
  GRS_metadataCore grs_file_entry (pyBasename grs_file_entry)

/-- Record with the `input_file` field blanked, to compare metadata records
up to the stored input path. -/
def eraseInputFile (r : ProductMetadata) : ProductMetadata :=
  { r with input_file := "" }

/-- Modelled from the spec: the spec's notion of a valid `YYYYMMDDTHHMMSS`
timestamp (filename grammar: "`dateTime` must match `YYYYMMDDTHHMMSS`"),
read as: exactly 15 characters, a literal `T` after eight digits, six digits
after it, and the denoted date/time is an actual calendar date and time. -/
def specValidYYYYMMDDTHHMMSS (s : String) : Bool :=
  match s.data with
  | [y1, y2, y3, y4, m1, m2, d1, d2, t, h1, h2, mi1, mi2, s1, s2] =>
    t = 'T' ∧
    ([y1, y2, y3, y4, m1, m2, d1, d2, h1, h2, mi1, mi2, s1, s2].all Char.isDigit) ∧
    datetimeValid
      (1000 * digitVal y1 + 100 * digitVal y2 + 10 * digitVal y3 + digitVal y4)
      (10 * digitVal m1 + digitVal m2)
      (10 * digitVal d1 + digitVal d2)
      (10 * digitVal h1 + digitVal h2)
      (10 * digitVal mi1 + digitVal mi2)
      (10 * digitVal s1 + digitVal s2)
  | _ => false

/-! ## Canonical digit-shape tokens (for reasoning about calendar validation) -/

/-- The two zero-padded decimal digits of `n < 100`. -/
def pad2c (n : Nat) : List Char := [digitChar (n / 10), digitChar (n % 10)]

/-- The four zero-padded decimal digits of `n < 10000`. -/
def pad4c (n : Nat) : List Char :=
  [digitChar (n / 1000), digitChar (n / 100 % 10), digitChar (n / 10 % 10), digitChar (n % 10)]

/-- The canonical `YYYYMMDDTHHMMSS`-shaped token with the given field values:
four year digits, two digits for each other field, a literal `T` in the
middle.  Every token matching the digit shape is of this form. -/
def renderYMDTHMS (y m d h mi s : Nat) : String :=
  List.asString (pad4c y ++ pad2c m ++ pad2c d ++ 'T' :: (pad2c h ++ pad2c mi ++ pad2c s))

/-- A string of ASCII characters only.  CPython's `\\d` (compiled without
`re.ASCII`) also matches non-ASCII Unicode decimal digits; the embedding
models the ASCII fragment, on which the compiled pattern is
character-for-character the one given above. -/
def isAsciiString (s : String) : Bool :=
  s.data.all (fun c => c.toNat < 128)

/-- A token matching the `YYYYMMDDTHHMMSS` digit shape: exactly 15
characters, eight digits, a literal `T`, six digits (no judgement about
whether the denoted date or time is possible). -/
def digitShapeYYYYMMDDTHHMMSS (s : String) : Bool :=
  match s.data with
  | [y1, y2, y3, y4, m1, m2, d1, d2, t, h1, h2, mi1, mi2, s1, s2] =>
    t = 'T' ∧
      ([y1, y2, y3, y4, m1, m2, d1, d2, h1, h2, mi1, mi2, s1, s2].all Char.isDigit)
  | _ => false

/-- The year, month, day, hour, minute and second a digit-shaped token
denotes (garbage on tokens of any other shape). -/
def decodeYYYYMMDDTHHMMSS (s : String) : Nat × Nat × Nat × Nat × Nat × Nat :=
  match s.data with
  | [y1, y2, y3, y4, m1, m2, d1, d2, _, h1, h2, mi1, mi2, s1, s2] =>
    (1000 * digitVal y1 + 100 * digitVal y2 + 10 * digitVal y3 + digitVal y4,
     10 * digitVal m1 + digitVal m2,
     10 * digitVal d1 + digitVal d2,
     10 * digitVal h1 + digitVal h2,
     10 * digitVal mi1 + digitVal mi2,
     10 * digitVal s1 + digitVal s2)
  | _ => (0, 0, 0, 0, 0, 0)

/-! ## `Raster.reproj`: band-loop orchestration

The pixel work is done by the external library (`rasterio`); the embedding
records the destination metadata the function builds and the sequence of
`reproject` calls it issues. -/

/-- `rasterio.warp.Resampling` members used or substitutable here. -/
inductive Resampling where
  | nearest
  | bilinear
  | cubic
deriving DecidableEq, Repr

/-- One `reproject(source=rasterio.band(src, i), destination=rasterio.band(dst, j), ..., resampling=...)` call. -/
structure ReprojCall where
  src_band : Nat
  dst_band : Nat
  resampling : Resampling
deriving DecidableEq, Repr

/-- A rasterio dataset profile (`src.meta`); the geotransform and nodata
values are carried opaquely (type parameters `G`, `N`). -/
structure RasterMeta (G N : Type) where
  crs : String
  transform : G
  width : Nat
  height : Nat
  count : Nat
  dtype : String
  nodata : N

/-- `kwargs = src.meta.copy(); kwargs.update({'crs': ..., 'transform': ...,
'width': ..., 'height': ...})` in `Raster.reproj`: the destination profile,
with every other field inherited from the source. -/
def reproj_dst_meta {G N : Type} (src : RasterMeta G N) (target_crs : String)
    (transform : G) (width height : Nat) : RasterMeta G N :=
  { src with crs := target_crs, transform := transform, width := width, height := height }

/-- The `reproject` calls issued by `for i in range(1, src.count + 1): reproject(source=rasterio.band(src, i), destination=rasterio.band(dst, i), ..., resampling=Resampling.nearest)`. -/
def reproj_band_calls (src_count : Nat) : List ReprojCall :=
  (List.range' 1 src_count).map fun i =>
    { src_band := i, dst_band := i, resampling := Resampling.nearest }

/-! ## `Raster.array2tiff`: GDAL call trace -/

/-- GDAL raster data types (`GDT_*`). -/
inductive GdalDataType where
  | GDT_Byte
  | GDT_UInt16
  | GDT_UInt32
  | GDT_Int32
  | GDT_Float32
deriving DecidableEq, Repr

/-- A 2-D ndarray: its shape `(shape[0], shape[1])` = (rows, columns), and
its element data carried opaquely. -/
structure NdArray2 (α : Type) where
  shape : Nat × Nat
  data : α

/-- Arguments of the `outdriver.Create(...)` call (`xsize` = columns,
`ysize` = rows, per the GDAL API). -/
structure GdalCreateArgs where
  filename : String
  xsize : Nat
  ysize : Nat
  bands : Nat
  dtype : GdalDataType
  options : List String
deriving DecidableEq, Repr

/-- Everything `Raster.array2tiff` hands to GDAL: the `Create` call, the
band written by `WriteArray`, the band and value of `SetNoDataValue`, and
the `SetGeoTransform` / `SetProjection` arguments. -/
structure Array2TiffTrace (α G : Type) where
  create : GdalCreateArgs
  write_band : Nat
  write_data : α
  nodata_band : Nat
  nodata_value : Int
  geotransform : G
  projection : String

/-- `Raster.array2tiff(ndarray_data, str_output_file, transform, projection, no_data, compression)`:
`[cols, rows] = ndarray_data.shape` (so the local `cols` holds `shape[0]`,
the row count, and `rows` holds `shape[1]`, the column count), then
`outdriver.Create(str_output_file, rows, cols, 1, gdal.GDT_Float32, options=[compression])`,
`outdata.GetRasterBand(1).WriteArray(ndarray_data)`,
`outdata.GetRasterBand(1).SetNoDataValue(no_data)`,
`outdata.SetGeoTransform(transform)`, `outdata.SetProjection(projection)`. -/
def Raster_array2tiff {α G : Type} (ndarray_data : NdArray2 α) (str_output_file : String)
    (transform : G) (projection : String) (no_data : Int) (compression : String) :
    Array2TiffTrace α G :=
  let cols := ndarray_data.shape.1
  let rows := ndarray_data.shape.2
  { create := { filename := str_output_file, xsize := rows, ysize := cols,
                bands := 1, dtype := GdalDataType.GDT_Float32, options := [compression] }
    write_band := 1
    write_data := ndarray_data.data
    nodata_band := 1
    nodata_value := no_data
    geotransform := transform
    projection := projection }

/-- `Raster.array2tiff` with `no_data` and `compression` left at their
declared defaults, `no_data=-1` and `compression='COMPRESS=PACKBITS'`. -/
def Raster_array2tiff_defaults {α G : Type} (ndarray_data : NdArray2 α)
    (str_output_file : String) (transform : G) (projection : String) :
    Array2TiffTrace α G :=
  Raster_array2tiff ndarray_data str_output_file transform projection (-1) "COMPRESS=PACKBITS"

/-! ## File-handle discipline of `Raster.array2tiff` and `Raster.reproj`

A small statement language over one kind of resource (raster dataset
handles), with an interpreter that injects a failure (a raised exception) at
an arbitrary step.  `scope` is a `with` block: its handle is closed on every
exit; `acquire`/`release` are the plain assignments `outdata = Create(...)`
and `outdata = None`, which release nothing when a later/earlier statement
raises. -/

mutual
inductive HStmt where
  | acquire : HStmt
  | use : HStmt
  | release : HStmt
  | scope : HProg → HStmt
inductive HProg where
  | nil : HProg
  | seq : HStmt → HProg → HProg
end

mutual
/-- Run one statement.  State: `(step counter, open handles, still running)`.
`fail k = true` means the acquisition or operation numbered `k` raises. -/
def runStmt : HStmt → (Nat → Bool) → Nat → Nat → Nat × Nat × Bool
  | HStmt.acquire, fail, c, o =>
    if fail c then (c + 1, o, false) else (c + 1, o + 1, true)
  | HStmt.use, fail, c, o =>
    if fail c then (c + 1, o, false) else (c + 1, o, true)
  | HStmt.release, _, c, o => (c + 1, o - 1, true)
  | HStmt.scope body, fail, c, o =>
    if fail c then (c + 1, o, false)
    else
      let r := runProg body fail (c + 1) (o + 1)
      (r.1, r.2.1 - 1, r.2.2)

/-- Run a program; a raised exception aborts the remaining statements. -/
def runProg : HProg → (Nat → Bool) → Nat → Nat → Nat × Nat × Bool
  | HProg.nil, _, c, o => (c, o, true)
  | HProg.seq s rest, fail, c, o =>
    let r := runStmt s fail c o
    if r.2.2 then runProg rest fail r.1 r.2.1 else r
end

/-- Handle discipline of `Raster.array2tiff` for its `outdata` dataset:
`outdata = outdriver.Create(...)`, then `WriteArray`, `SetNoDataValue`,
`SetGeoTransform`, `SetProjection`, then the plain statement
`outdata = None`. -/
def array2tiff_handles : HProg :=
  HProg.seq HStmt.acquire (HProg.seq HStmt.use (HProg.seq HStmt.use
    (HProg.seq HStmt.use (HProg.seq HStmt.use (HProg.seq HStmt.release HProg.nil)))))

/-- A straight-line run of `n` operations (the per-band `reproject` loop). -/
def usesN : Nat → HProg
  | 0 => HProg.nil
  | n + 1 => HProg.seq HStmt.use (usesN n)

/-- Handle discipline of `Raster.reproj` for a source with `n` bands:
`with rasterio.open(in_raster) as src:` wrapping
`calculate_default_transform(...)` and
`with rasterio.open(out_raster, 'w', **kwargs) as dst:` wrapping the `n`
`reproject(...)` calls. -/
def reproj_handles (n : Nat) : HProg :=
  HProg.seq
    (HStmt.scope (HProg.seq HStmt.use (HProg.seq (HStmt.scope (usesN n)) HProg.nil)))
    HProg.nil

/-! ## Helper lemmas about `GRS_metadata` -/

theorem GRS_metadataCore_format_err (input base : String)
    (h : (pySplit '_' base).length ≠ 9) :
    GRS_metadataCore input base = Except.error MetaError.formatError := by
  unfold GRS_metadataCore
  rcases hl : pySplit '_' base with
      _ | ⟨t1, _ | ⟨t2, _ | ⟨t3, _ | ⟨t4, _ | ⟨t5, _ | ⟨t6, _ | ⟨t7, _ | ⟨t8, _ | ⟨t9, _ | ⟨t10, l⟩⟩⟩⟩⟩⟩⟩⟩⟩⟩ <;>
    first
      | rfl
      | (exfalso; rw [hl] at h; simp at h)

theorem GRS_metadataCore_ok (input base t1 t2 t3 t4 t5 t6 t7 t8 t9 : String) (dt : PyDate)
    (hsplit : pySplit '_' base = [t1, t2, t3, t4, t5, t6, t7, t8, t9])
    (hdate : strptime_YmdTHMS t3 = some dt) :
    GRS_metadataCore input base = Except.ok
      { input_file := input
        basename := base
        mission := t1
        prod_lvl := t2
        str_date := t3
        pydate := dt
        year := py02d dt.year
        month := py02d dt.month
        day := py02d dt.day
        baseline_algo_version := t4
        relative_orbit := t5
        tile := t6
        product_discriminator := t7
        cloud_cover := t8
        grs_ver := t9 } := by
  unfold GRS_metadataCore
  rw [hsplit]
  simp only [hdate]

theorem GRS_metadataCore_date_err (input base t1 t2 t3 t4 t5 t6 t7 t8 t9 : String)
    (hsplit : pySplit '_' base = [t1, t2, t3, t4, t5, t6, t7, t8, t9])
    (hdate : strptime_YmdTHMS t3 = none) :
    GRS_metadataCore input base = Except.error MetaError.dateParseError := by
  unfold GRS_metadataCore
  rw [hsplit]
  simp only [hdate]

theorem GRS_metadataCore_erase (a b base : String) :
    (GRS_metadataCore a base).map eraseInputFile
      = (GRS_metadataCore b base).map eraseInputFile := by
  unfold GRS_metadataCore
  rcases hl : pySplit '_' base with
      _ | ⟨t1, _ | ⟨t2, _ | ⟨t3, _ | ⟨t4, _ | ⟨t5, _ | ⟨t6, _ | ⟨t7, _ | ⟨t8, _ | ⟨t9, _ | ⟨t10, l⟩⟩⟩⟩⟩⟩⟩⟩⟩⟩ <;>
    first
      | rfl
      | (rcases hs : strptime_YmdTHMS t3 with _ | dt <;>
          simp [hs, Except.map, eraseInputFile])

theorem daysInMonth_le_31 (y m : Nat) : daysInMonth y m ≤ 31 := by
  unfold daysInMonth
  split
  · split <;> omega
  · split <;> omega

theorem strptime_valid (s : String) (dt : PyDate) (h : strptime_YmdTHMS s = some dt) :
    datetimeValid dt.year dt.month dt.day dt.hour dt.minute dt.second := by
  unfold strptime_YmdTHMS at h
  rcases hy : yParse s.data with _ | ⟨y, s1⟩
  · simp only [hy] at h
    exact Option.noConfusion h
  · simp only [hy] at h
    rcases hmd : mdFirst s1 with _ | ⟨m, d, hh, mi, sec, rest⟩
    · simp only [hmd] at h
      exact Option.noConfusion h
    · simp only [hmd] at h
      by_cases hr : rest = []
      · rw [if_pos hr] at h
        unfold mkValidDatetime at h
        by_cases hv : datetimeValid y m d hh mi sec
        · rw [if_pos hv] at h
          cases h
          exact hv
        · rw [if_neg hv] at h
          cases h
      · rw [if_neg hr] at h
        cases h

theorem py02d_two_digit : ∀ n, n < 100 → (py02d n).length = 2 := by decide

/-! ## Claim theorems -/

/-- C1 (counterexample): the claim says the `year` field is a zero-padded
two-digit string; on the spec's own example input the code produces the
four-character string `"2020"`. -/
theorem C1_cex :
    (GRS_metadata
        "S2B_MSIL1C_20200101T090000_N0209_R065_T31UDQ_20200101T120000_cc015_v14.nc").map
      (fun r => (r.year, r.year.length)) = Except.ok ("2020", 4) ∧ 4 ≠ 2 := by
  constructor
  · rfl
  · decide

/-- C2 (counterexample): the claim says `grs_ver = 'v14'`; the code keeps the
file extension in the last token, producing `'v14.nc'`. -/
theorem C2_cex :
    (GRS_metadata
        "S2B_MSIL1C_20200101T090000_N0209_R065_T31UDQ_20200101T120000_cc015_v14.nc").map
      (fun r => r.grs_ver) = Except.ok "v14.nc" ∧ "v14.nc" ≠ "v14" := by
  constructor
  · rfl
  · decide

/-- C2 (amended): parsing the example basename returns exactly the claimed
record, except that `grs_ver` is `'v14.nc'` (the ninth `'_'`-token, extension
included) rather than `'v14'`. -/
theorem C2_thm :
    GRS_metadata
        "S2B_MSIL1C_20200101T090000_N0209_R065_T31UDQ_20200101T120000_cc015_v14.nc"
      = Except.ok
      { input_file := "S2B_MSIL1C_20200101T090000_N0209_R065_T31UDQ_20200101T120000_cc015_v14.nc"
        basename := "S2B_MSIL1C_20200101T090000_N0209_R065_T31UDQ_20200101T120000_cc015_v14.nc"
        mission := "S2B"
        prod_lvl := "MSIL1C"
        str_date := "20200101T090000"
        pydate := ⟨2020, 1, 1, 9, 0, 0⟩
        year := "2020"
        month := "01"
        day := "01"
        baseline_algo_version := "N0209"
        relative_orbit := "R065"
        tile := "T31UDQ"
        product_discriminator := "20200101T120000"
        cloud_cover := "cc015"
        grs_ver := "v14.nc" } := by
  rfl

/-- C3: for every input path whose basename does not split on `'_'` into
exactly nine tokens, `GRS.metadata` fails with the format error (the
9-way unpacking raises `ValueError`) and returns no record. -/
theorem C3_thm (p : String) (h : (pySplit '_' (pyBasename p)).length ≠ 9) :
    GRS_metadata p = Except.error MetaError.formatError :=
  GRS_metadataCore_format_err p (pyBasename p) h

/-- C3 (witness): a three-token basename fails with the format error. -/
theorem C3_witness :
    (pySplit '_' (pyBasename "a_b_c")).length ≠ 9 ∧
      GRS_metadata "a_b_c" = Except.error MetaError.formatError :=
  ⟨by decide, C3_thm "a_b_c" (by decide)⟩

/-- C4 (counterexample): `'202151T131241'` is not a valid `YYYYMMDDTHHMMSS`
timestamp (it has 13 characters, the `T` after six digits), yet
`GRS.metadata` succeeds on a nine-token basename carrying it: CPython's
`strptime` accepts unpadded month/day fields, parsing it as 2021-05-01
13:12:41. -/
theorem C4_cex :
    specValidYYYYMMDDTHHMMSS "202151T131241" = false ∧
      (GRS_metadata "S2A_MSIL1C_202151T131241_N0300_R138_T23KMQ_X_cc020_v15.nc").map
        (fun r => r.pydate) = Except.ok ⟨2021, 5, 1, 13, 12, 41⟩ := by
  constructor
  · decide
  · rfl

/-- C4 (amended): for every input path whose basename splits on `'_'` into
exactly nine tokens and whose third token consists of ASCII characters and
is rejected by `datetime.strptime(..., '%Y%m%dT%H%M%S')` — a parse that is
lenient and also accepts some tokens that do not match the strict
`YYYYMMDDTHHMMSS` shape, such as ones with unpadded or space-padded
fields — `GRS.metadata` fails with the date-parse error; in particular the
token `'20210521'` alone causes this failure. -/
theorem C4_thm (p t1 t2 t3 t4 t5 t6 t7 t8 t9 : String)
    (_hascii : isAsciiString t3 = true)
    (hsplit : pySplit '_' (pyBasename p) = [t1, t2, t3, t4, t5, t6, t7, t8, t9])
    (hdate : strptime_YmdTHMS t3 = none) :
    GRS_metadata p = Except.error MetaError.dateParseError :=
  GRS_metadataCore_date_err p (pyBasename p) t1 t2 t3 t4 t5 t6 t7 t8 t9 hsplit hdate

/-- C4 (witness): the amended theorem applied to a basename whose third
token is `'20210521'`. -/
theorem C4_witness :
    isAsciiString "20210521" = true ∧ strptime_YmdTHMS "20210521" = none ∧
      GRS_metadata "S2A_MSIL1C_20210521_N0300_R138_T23KMQ_20210521T163353_cc020_v15.nc"
        = Except.error MetaError.dateParseError :=
  ⟨by decide, by decide,
    C4_thm "S2A_MSIL1C_20210521_N0300_R138_T23KMQ_20210521T163353_cc020_v15.nc"
      "S2A" "MSIL1C" "20210521" "N0300" "R138" "T23KMQ" "20210521T163353" "cc020"
      "v15.nc" (by decide) (by decide) (by decide)⟩

/-- C5: for every basename with exactly nine `'_'`-delimited tokens whose
third token the date parser accepts, `GRS.metadata` succeeds whatever the
other eight tokens contain — no further validation is performed. -/
theorem C5_thm (p t1 t2 t3 t4 t5 t6 t7 t8 t9 : String) (dt : PyDate)
    (hsplit : pySplit '_' (pyBasename p) = [t1, t2, t3, t4, t5, t6, t7, t8, t9])
    (hdate : strptime_YmdTHMS t3 = some dt) :
    ∃ r, GRS_metadata p = Except.ok r :=
  ⟨_, GRS_metadataCore_ok p (pyBasename p) t1 t2 t3 t4 t5 t6 t7 t8 t9 dt hsplit hdate⟩

/-- C5 (witness): a basename whose eight non-date tokens are all empty
strings (in particular the cloud-cover token does not start with `cc`)
still parses successfully. -/
theorem C5_witness :
    ∃ r, GRS_metadata "__20210521T131241______" = Except.ok r :=
  C5_thm "__20210521T131241______" "" "" "20210521T131241" "" "" "" "" "" ""
    ⟨2021, 5, 21, 13, 12, 41⟩ (by decide) (by decide)

/-- C9 (counterexample): two paths with the same basename in different
directories do not yield identical records: the `input_file` field stores
the full input path. -/
theorem C9_cex :
    pyBasename "/a/S2A_MSIL1C_20210521T131241_N0300_R138_T23KMQ_X_cc020_v15.nc"
        = pyBasename "/b/S2A_MSIL1C_20210521T131241_N0300_R138_T23KMQ_X_cc020_v15.nc" ∧
      (GRS_metadata "/a/S2A_MSIL1C_20210521T131241_N0300_R138_T23KMQ_X_cc020_v15.nc").toOption.map
          (fun r => r.input_file)
        = some "/a/S2A_MSIL1C_20210521T131241_N0300_R138_T23KMQ_X_cc020_v15.nc" ∧
      (GRS_metadata "/b/S2A_MSIL1C_20210521T131241_N0300_R138_T23KMQ_X_cc020_v15.nc").toOption.map
          (fun r => r.input_file)
        = some "/b/S2A_MSIL1C_20210521T131241_N0300_R138_T23KMQ_X_cc020_v15.nc" ∧
      ("/a/S2A_MSIL1C_20210521T131241_N0300_R138_T23KMQ_X_cc020_v15.nc" : String)
        ≠ "/b/S2A_MSIL1C_20210521T131241_N0300_R138_T23KMQ_X_cc020_v15.nc" := by
  refine ⟨rfl, rfl, rfl, ?_⟩
  decide

/-- C9 (amended): the record is derived purely from the basename in every
field except `input_file`, which stores the original path: two paths with
equal basenames yield records that agree once `input_file` is blanked
(and fail identically otherwise). -/
theorem C9_thm (p q : String) (h : pyBasename p = pyBasename q) :
    (GRS_metadata p).map eraseInputFile = (GRS_metadata q).map eraseInputFile := by
  unfold GRS_metadata
  rw [h]
  exact GRS_metadataCore_erase p q (pyBasename q)

/-- C9 (witness): the amended theorem applied to the same basename under
two directories. -/
theorem C9_witness :
    (GRS_metadata "/a/S2A_MSIL1C_20210521T131241_N0300_R138_T23KMQ_X_cc020_v15.nc").map
        eraseInputFile
      = (GRS_metadata "/b/S2A_MSIL1C_20210521T131241_N0300_R138_T23KMQ_X_cc020_v15.nc").map
        eraseInputFile :=
  C9_thm "/a/S2A_MSIL1C_20210521T131241_N0300_R138_T23KMQ_X_cc020_v15.nc"
    "/b/S2A_MSIL1C_20210521T131241_N0300_R138_T23KMQ_X_cc020_v15.nc" (by decide)

/-- C6: for a source with `n` bands, `Raster.reproj` issues exactly `n`
`reproject` calls, for the strictly ascending band indices `1, ..., n`,
each with nearest-neighbor resampling and destination band equal to source
band; and the destination profile inherits the band count (along with every
field not overridden), so band count and band order are preserved. -/
theorem C6_thm {G N : Type} (src : RasterMeta G N) (target_crs : String)
    (transform : G) (width height : Nat) :
    (reproj_band_calls src.count).length = src.count ∧
      (reproj_band_calls src.count).map (fun c => c.src_band) = List.range' 1 src.count ∧
      List.Pairwise (· < ·) ((reproj_band_calls src.count).map (fun c => c.src_band)) ∧
      (reproj_band_calls src.count).map (fun c => c.dst_band)
        = (reproj_band_calls src.count).map (fun c => c.src_band) ∧
      (reproj_band_calls src.count).map (fun c => c.resampling)
        = List.replicate src.count Resampling.nearest ∧
      (reproj_dst_meta src target_crs transform width height).count = src.count ∧
      (reproj_dst_meta src target_crs transform width height).dtype = src.dtype ∧
      (reproj_dst_meta src target_crs transform width height).nodata = src.nodata := by
  have hsrc : (reproj_band_calls src.count).map (fun c => c.src_band)
      = List.range' 1 src.count := by
    simp only [reproj_band_calls, List.map_map]
    have hcomp : ((fun c : ReprojCall => c.src_band) ∘ fun i =>
        ({ src_band := i, dst_band := i, resampling := Resampling.nearest } : ReprojCall)) = id := rfl
    rw [hcomp, List.map_id]
  refine ⟨by simp [reproj_band_calls], hsrc, ?_, ?_, ?_, rfl, rfl, rfl⟩
  · rw [hsrc]
    exact List.pairwise_lt_range' ..
  · simp [reproj_band_calls, List.map_map, Function.comp]
  · simp only [reproj_band_calls, List.map_map, Function.comp]
    induction src.count with
    | zero => rfl
    | succ k ih => rw [List.range'_concat, List.map_append, ih, List.replicate_succ']; rfl

/-- C7: `Raster.array2tiff` creates a single-band `GDT_Float32` raster at
the output path whose raster dimensions are the grid's shape (`ysize` rows =
`shape[0]`, `xsize` columns = `shape[1]`), writes the grid into band 1, sets
band 1's no-data value to the `no_data` argument, attaches the given
geotransform and projection, passes the compression string as the creation
option, and with the declared defaults uses `no_data = -1` and
`'COMPRESS=PACKBITS'`. -/
theorem C7_thm {α G : Type} (g : NdArray2 α) (out : String) (transform : G)
    (projection : String) (no_data : Int) (compression : String) :
    (Raster_array2tiff g out transform projection no_data compression).create.filename = out ∧
      (Raster_array2tiff g out transform projection no_data compression).create.bands = 1 ∧
      (Raster_array2tiff g out transform projection no_data compression).create.dtype
        = GdalDataType.GDT_Float32 ∧
      (Raster_array2tiff g out transform projection no_data compression).create.ysize
        = g.shape.1 ∧
      (Raster_array2tiff g out transform projection no_data compression).create.xsize
        = g.shape.2 ∧
      (Raster_array2tiff g out transform projection no_data compression).write_band = 1 ∧
      (Raster_array2tiff g out transform projection no_data compression).write_data = g.data ∧
      (Raster_array2tiff g out transform projection no_data compression).nodata_band = 1 ∧
      (Raster_array2tiff g out transform projection no_data compression).nodata_value
        = no_data ∧
      (Raster_array2tiff g out transform projection no_data compression).geotransform
        = transform ∧
      (Raster_array2tiff g out transform projection no_data compression).projection
        = projection ∧
      (Raster_array2tiff g out transform projection no_data compression).create.options
        = [compression] ∧
      (Raster_array2tiff_defaults g out transform projection).nodata_value = -1 ∧
      (Raster_array2tiff_defaults g out transform projection).create.options
        = ["COMPRESS=PACKBITS"] := by
  refine ⟨rfl, rfl, rfl, rfl, rfl, rfl, rfl, rfl, rfl, rfl, rfl, rfl, rfl, rfl⟩

/-- Straight-line `use` runs leave the number of open handles unchanged,
whether or not one of them raises. -/
theorem runProg_usesN (n : Nat) (fail : Nat → Bool) (c o : Nat) :
    (runProg (usesN n) fail c o).2.1 = o := by
  induction n generalizing c o with
  | zero => rfl
  | succ k ih =>
    show (runProg (HProg.seq HStmt.use (usesN k)) fail c o).2.1 = o
    simp only [runProg, runStmt]
    by_cases h : fail c
    · simp [h]
    · simp [h, ih]

/-- C8 (counterexample): in `Raster.array2tiff`, if the step after the
`Create` call (the `WriteArray` call, step number 1) raises, the function
aborts with its dataset handle still open (one open handle, not zero): the
trailing `outdata = None` is not a `finally`/`with` construct and is
skipped. -/
theorem C8_cex :
    runProg array2tiff_handles (fun c => decide (c = 1)) 0 0 = (2, 1, false) := by
  simp [array2tiff_handles, runProg, runStmt]

/-- C8 (amended): `Raster.reproj` opens its datasets with `with` blocks, so
however many bands there are and whichever step raises, every handle it
opened is released by the time it exits; `Raster.array2tiff` releases its
handle on the normal (exception-free) path only. -/
theorem C8_thm (n : Nat) (fail : Nat → Bool) :
    (runProg (reproj_handles n) fail 0 0).2.1 = 0 ∧
      (runProg array2tiff_handles (fun _ => false) 0 0).2.1 = 0 := by
  constructor
  · unfold reproj_handles
    simp only [runProg, runStmt]
    by_cases h0 : fail 0
    · simp [h0]
    · simp only [h0]
      by_cases h1 : fail 1
      · simp [h1, runProg, runStmt]
      · simp only [h1, runProg, runStmt, Bool.false_eq_true, if_false, if_true]
        by_cases h2 : fail 2
        · simp [h2, runProg, runStmt]
        · simp only [h2]
          rcases hr : runProg (usesN n) fail 3 2 with ⟨c', o', ok'⟩
          have ho : o' = 2 := by
            have := runProg_usesN n fail 3 2
            rw [hr] at this
            exact this
          subst ho
          cases ok' <;> simp [hr, runProg, runStmt]
  · simp [array2tiff_handles, runProg, runStmt]

/-! ## Digit-character facts used to evaluate the regex on canonical tokens -/

theorem dc_isDigit : ∀ a, a < 10 → (digitChar a).isDigit = true := by decide

theorem dc_digitVal : ∀ a, a < 10 → digitVal (digitChar a) = a := by decide

theorem dc_not_T : ∀ a, a < 10 → ¬(digitChar a = 'T' ∨ digitChar a = 't') := by decide

theorem dc_ne_space : ∀ a, a < 10 → ¬(digitChar a = ' ') := by decide

theorem dc_eq0 : ∀ a, a < 10 → ((digitChar a = '0') ↔ a = 0) := by decide

theorem dc_eq1 : ∀ a, a < 10 → ((digitChar a = '1') ↔ a = 1) := by decide

theorem dc_eq2 : ∀ a, a < 10 → ((digitChar a = '2') ↔ a = 2) := by decide

theorem dc_eq3 : ∀ a, a < 10 → ((digitChar a = '3') ↔ a = 3) := by decide

theorem dc_eq6 : ∀ a, a < 10 → ((digitChar a = '6') ↔ a = 6) := by decide

theorem dc_ge0 : ∀ a, a < 10 → ('0' ≤ digitChar a) := by decide

theorem dc_ge1 : ∀ a, a < 10 → (('1' ≤ digitChar a) ↔ 1 ≤ a) := by decide

theorem dc_le1 : ∀ a, a < 10 → ((digitChar a ≤ '1') ↔ a ≤ 1) := by decide

theorem dc_le2 : ∀ a, a < 10 → ((digitChar a ≤ '2') ↔ a ≤ 2) := by decide

theorem dc_le3 : ∀ a, a < 10 → ((digitChar a ≤ '3') ↔ a ≤ 3) := by decide

theorem dc_le5 : ∀ a, a < 10 → ((digitChar a ≤ '5') ↔ a ≤ 5) := by decide

theorem dc_le9 : ∀ a, a < 10 → (digitChar a ≤ '9') := by decide

/-- `%Y` consumes the four digits of `pad4c y` and recovers `y`. -/
theorem yParse_pad4 (y : Nat) (hy : y < 10000) (r : List Char) :
    yParse (pad4c y ++ r) = some (y, r) := by
  have h1 : y / 1000 < 10 := by omega
  have h2 : y / 100 % 10 < 10 := by omega
  have h3 : y / 10 % 10 < 10 := by omega
  have h4 : y % 10 < 10 := by omega
  simp only [pad4c, List.cons_append, List.nil_append, yParse]
  rw [if_pos ⟨dc_isDigit _ h1, dc_isDigit _ h2, dc_isDigit _ h3, dc_isDigit _ h4⟩,
    dc_digitVal _ h1, dc_digitVal _ h2, dc_digitVal _ h3, dc_digitVal _ h4]
  have harith : 1000 * (y / 1000) + 100 * (y / 100 % 10) + 10 * (y / 10 % 10) + y % 10 = y := by
    omega
  rw [harith]

/-- The `%M%S` tail of the search on a canonical four-digit tail
`pad2c mi ++ pad2c sec`: either the first match consumes everything and
extracts exactly `(mi, sec)`, or the first match leaves a nonempty
remainder. -/
theorem minSec_cases {α : Type} (g : Nat → Nat → List Char → α) (mi sec : Nat)
    (hmi : mi < 100) (hs : sec < 100) :
    ((mi ≤ 59 ∧ sec ≤ 61) ∧
      ((minAlts (pad2c mi ++ pad2c sec)).findSome? fun ms =>
        (sAlts ms.2).findSome? fun ss => some (g ms.1 ss.1 ss.2))
      = some (g mi sec []))
    ∨ (¬(mi ≤ 59 ∧ sec ≤ 61) ∧
      ∃ a b r, ((minAlts (pad2c mi ++ pad2c sec)).findSome? fun ms =>
        (sAlts ms.2).findSome? fun ss => some (g ms.1 ss.1 ss.2)) = some (g a b r)
        ∧ r ≠ []) := by
  have hA : mi / 10 < 10 := by omega
  have hB : mi % 10 < 10 := by omega
  have hC : sec / 10 < 10 := by omega
  have hD : sec % 10 < 10 := by omega
  simp only [pad2c, List.cons_append, List.nil_append]
  by_cases hm59 : mi ≤ 59
  · have hmin : minAlts (digitChar (mi / 10) :: digitChar (mi % 10) ::
        digitChar (sec / 10) :: digitChar (sec % 10) :: []) =
        [(10 * (mi / 10) + mi % 10, [digitChar (sec / 10), digitChar (sec % 10)]),
         (mi / 10, [digitChar (mi % 10), digitChar (sec / 10), digitChar (sec % 10)])] := by
      simp only [minAlts]
      rw [if_pos ⟨⟨dc_ge0 _ hA, (dc_le5 _ hA).mpr (by omega)⟩, dc_isDigit _ hB⟩,
        if_pos (dc_isDigit _ hA), dc_digitVal _ hA, dc_digitVal _ hB]
      rfl
    rw [hmin]
    by_cases hs60 : 60 ≤ sec ∧ sec ≤ 61
    · have hsec : sAlts [digitChar (sec / 10), digitChar (sec % 10)] =
          [(60 + sec % 10, []),
           (sec / 10, [digitChar (sec % 10)])] := by
        simp only [sAlts]
        rw [if_pos ⟨(dc_eq6 _ hC).mpr (by omega), dc_ge0 _ hD, (dc_le1 _ hD).mpr (by omega)⟩,
          if_neg (fun hcon => absurd ((dc_le5 _ hC).mp hcon.1.2) (by omega)),
          if_pos (dc_isDigit _ hC), dc_digitVal _ hC, dc_digitVal _ hD]
        rfl
      refine Or.inl ⟨⟨hm59, by omega⟩, ?_⟩
      simp only [List.findSome?, hsec]
      have e1 : 10 * (mi / 10) + mi % 10 = mi := by omega
      have e2 : 60 + sec % 10 = sec := by omega
      rw [e1, e2]
    · by_cases hs59 : sec ≤ 59
      · have hsec : sAlts [digitChar (sec / 10), digitChar (sec % 10)] =
            [(10 * (sec / 10) + sec % 10, []),
             (sec / 10, [digitChar (sec % 10)])] := by
          simp only [sAlts]
          rw [if_neg (fun hcon => absurd ((dc_eq6 _ hC).mp hcon.1) (by omega)),
            if_pos ⟨⟨dc_ge0 _ hC, (dc_le5 _ hC).mpr (by omega)⟩, dc_isDigit _ hD⟩,
            if_pos (dc_isDigit _ hC), dc_digitVal _ hC, dc_digitVal _ hD]
          rfl
        refine Or.inl ⟨⟨hm59, by omega⟩, ?_⟩
        simp only [List.findSome?, hsec]
        have e1 : 10 * (mi / 10) + mi % 10 = mi := by omega
        have e2 : 10 * (sec / 10) + sec % 10 = sec := by omega
        rw [e1, e2]
      · -- sec ≥ 62: only the one-character alternative fires
        have hsec : sAlts [digitChar (sec / 10), digitChar (sec % 10)] =
            [(sec / 10, [digitChar (sec % 10)])] := by
          simp only [sAlts]
          rw [if_neg (fun hcon => absurd ((dc_le1 _ hD).mp hcon.2.2)
              (by
                have h6 : sec / 10 = 6 := (dc_eq6 _ hC).mp hcon.1
                omega)),
            if_neg (fun hcon => absurd ((dc_le5 _ hC).mp hcon.1.2) (by omega)),
            if_pos (dc_isDigit _ hC), dc_digitVal _ hC]
          rfl
        refine Or.inr ⟨by omega,
          10 * (mi / 10) + mi % 10, sec / 10, [digitChar (sec % 10)], ?_, by simp⟩
        simp only [List.findSome?, hsec]
  · -- mi ≥ 60: minute group can only take one character
    have hmin : minAlts (digitChar (mi / 10) :: digitChar (mi % 10) ::
        digitChar (sec / 10) :: digitChar (sec % 10) :: []) =
        [(mi / 10, [digitChar (mi % 10), digitChar (sec / 10), digitChar (sec % 10)])] := by
      simp only [minAlts]
      rw [if_neg (fun hcon => absurd ((dc_le5 _ hA).mp hcon.1.2) (by omega)),
        if_pos (dc_isDigit _ hA), dc_digitVal _ hA]
      rfl
    rw [hmin]
    refine Or.inr ⟨by omega, ?_⟩
    by_cases h6 : mi % 10 = 6 ∧ sec / 10 ≤ 1
    · have hsec : sAlts [digitChar (mi % 10), digitChar (sec / 10), digitChar (sec % 10)] =
          (60 + sec / 10, [digitChar (sec % 10)]) ::
            (if ('0' ≤ digitChar (mi % 10) ∧ digitChar (mi % 10) ≤ '5') ∧
                (digitChar (sec / 10)).isDigit = true then
              [(10 * (mi % 10) + sec / 10, [digitChar (sec % 10)])] else []) ++
            [(mi % 10, [digitChar (sec / 10), digitChar (sec % 10)])] := by
        simp only [sAlts]
        rw [if_pos ⟨(dc_eq6 _ hB).mpr h6.1, dc_ge0 _ hC, (dc_le1 _ hC).mpr h6.2⟩,
          if_pos (dc_isDigit _ hB), dc_digitVal _ hB, dc_digitVal _ hC]
        rfl
      refine ⟨mi / 10, 60 + sec / 10, [digitChar (sec % 10)], ?_, by simp⟩
      simp only [List.findSome?, hsec, List.cons_append]
    · by_cases h5 : mi % 10 ≤ 5
      · have hsec : sAlts [digitChar (mi % 10), digitChar (sec / 10), digitChar (sec % 10)] =
            (10 * (mi % 10) + sec / 10, [digitChar (sec % 10)]) ::
              [(mi % 10, [digitChar (sec / 10), digitChar (sec % 10)])] := by
          simp only [sAlts]
          rw [if_neg (fun hcon => absurd ⟨(dc_eq6 _ hB).mp hcon.1, (dc_le1 _ hC).mp hcon.2.2⟩ h6),
            if_pos ⟨⟨dc_ge0 _ hB, (dc_le5 _ hB).mpr h5⟩, dc_isDigit _ hC⟩,
            if_pos (dc_isDigit _ hB), dc_digitVal _ hB, dc_digitVal _ hC]
          rfl
        refine ⟨mi / 10, 10 * (mi % 10) + sec / 10, [digitChar (sec % 10)], ?_, by simp⟩
        simp only [List.findSome?, hsec]
      · have hsec : sAlts [digitChar (mi % 10), digitChar (sec / 10), digitChar (sec % 10)] =
            [(mi % 10, [digitChar (sec / 10), digitChar (sec % 10)])] := by
          simp only [sAlts]
          rw [if_neg (fun hcon => absurd ⟨(dc_eq6 _ hB).mp hcon.1, (dc_le1 _ hC).mp hcon.2.2⟩ h6),
            if_neg (fun hcon => absurd ((dc_le5 _ hB).mp hcon.1.2) h5),
            if_pos (dc_isDigit _ hB), dc_digitVal _ hB]
          rfl
        refine ⟨mi / 10, mi % 10, [digitChar (sec / 10), digitChar (sec % 10)], ?_, by simp⟩
        simp only [List.findSome?, hsec]

/-- The `%H%M%S` search on a canonical six-digit tail: when the hour,
minute and second lie in the regex ranges, the first match consumes
everything and extracts exactly `(h, mi, sec)`; otherwise the first match
leaves a nonempty remainder. -/
theorem timeFirst_cases (h mi sec : Nat) (hh : h < 100) (hmi : mi < 100) (hs : sec < 100) :
    ((h ≤ 23 ∧ mi ≤ 59 ∧ sec ≤ 61) ∧
      timeFirst (pad2c h ++ (pad2c mi ++ pad2c sec)) = some (h, mi, sec, []))
    ∨ (¬(h ≤ 23 ∧ mi ≤ 59 ∧ sec ≤ 61) ∧
      ∃ a b c r, timeFirst (pad2c h ++ (pad2c mi ++ pad2c sec)) = some (a, b, c, r)
        ∧ r ≠ []) := by
  have hA : h / 10 < 10 := by omega
  have hB : h % 10 < 10 := by omega
  have hC : mi / 10 < 10 := by omega
  have hD : mi % 10 < 10 := by omega
  have hE : sec / 10 < 10 := by omega
  have hF : sec % 10 < 10 := by omega
  unfold timeFirst
  by_cases h23 : 20 ≤ h ∧ h ≤ 23
  · have halts : hAlts (pad2c h ++ (pad2c mi ++ pad2c sec)) =
        [(20 + h % 10, pad2c mi ++ pad2c sec),
         (h / 10, digitChar (h % 10) :: (pad2c mi ++ pad2c sec))] := by
      simp only [pad2c, List.cons_append, List.nil_append, hAlts]
      rw [if_pos ⟨(dc_eq2 _ hA).mpr (by omega), dc_ge0 _ hB, (dc_le3 _ hB).mpr (by omega)⟩,
        if_neg (fun hcon => absurd ((dc_le1 _ hA).mp hcon.1.2) (by omega)),
        if_pos (dc_isDigit _ hA), dc_digitVal _ hA, dc_digitVal _ hB]
      rfl
    rw [halts]
    have hms := minSec_cases (fun a b r => (20 + h % 10, a, b, r)) mi sec hmi hs
    simp only [] at hms
    rcases hms with ⟨hbnd, hchain⟩ | ⟨hnb, a, b, r, hchain, hr⟩
    · refine Or.inl ⟨⟨by omega, hbnd.1, hbnd.2⟩, ?_⟩
      simp only [List.findSome?, hchain]
      have e1 : 20 + h % 10 = h := by omega
      rw [e1]
    · refine Or.inr ⟨fun hcon => hnb ⟨hcon.2.1, hcon.2.2⟩, 20 + h % 10, a, b, r, ?_, hr⟩
      simp only [List.findSome?, hchain]
  · by_cases h19 : h ≤ 19
    · have halts : hAlts (pad2c h ++ (pad2c mi ++ pad2c sec)) =
          [(10 * (h / 10) + h % 10, pad2c mi ++ pad2c sec),
           (h / 10, digitChar (h % 10) :: (pad2c mi ++ pad2c sec))] := by
        simp only [pad2c, List.cons_append, List.nil_append, hAlts]
        rw [if_neg (fun hcon => absurd ((dc_eq2 _ hA).mp hcon.1) (by omega)),
          if_pos ⟨⟨dc_ge0 _ hA, (dc_le1 _ hA).mpr (by omega)⟩, dc_isDigit _ hB⟩,
          if_pos (dc_isDigit _ hA), dc_digitVal _ hA, dc_digitVal _ hB]
        rfl
      rw [halts]
      have hms := minSec_cases (fun a b r => (10 * (h / 10) + h % 10, a, b, r)) mi sec hmi hs
      simp only [] at hms
      rcases hms with ⟨hbnd, hchain⟩ | ⟨hnb, a, b, r, hchain, hr⟩
      · refine Or.inl ⟨⟨by omega, hbnd.1, hbnd.2⟩, ?_⟩
        simp only [List.findSome?, hchain]
        have e1 : 10 * (h / 10) + h % 10 = h := by omega
        rw [e1]
      · refine Or.inr ⟨fun hcon => hnb ⟨hcon.2.1, hcon.2.2⟩,
          10 * (h / 10) + h % 10, a, b, r, ?_, hr⟩
        simp only [List.findSome?, hchain]
    · -- h ≥ 24: the hour group takes a single character, so at most five of
      -- the six characters can be consumed and the remainder is nonempty.
      have halts : hAlts (pad2c h ++ (pad2c mi ++ pad2c sec)) =
          [(h / 10, digitChar (h % 10) :: (pad2c mi ++ pad2c sec))] := by
        simp only [pad2c, List.cons_append, List.nil_append, hAlts]
        rw [if_neg (fun hcon => absurd ((dc_le3 _ hB).mp hcon.2.2)
            (by
              have := (dc_eq2 _ hA).mp hcon.1
              omega)),
          if_neg (fun hcon => absurd ((dc_le1 _ hA).mp hcon.1.2) (by omega)),
          if_pos (dc_isDigit _ hA), dc_digitVal _ hA]
        rfl
      rw [halts]
      refine Or.inr ⟨by omega, ?_⟩
      by_cases hb5 : h % 10 ≤ 5
      · have hmin : minAlts (digitChar (h % 10) :: (pad2c mi ++ pad2c sec)) =
            [(10 * (h % 10) + mi / 10, digitChar (mi % 10) :: pad2c sec),
             (h % 10, pad2c mi ++ pad2c sec)] := by
          simp only [pad2c, List.cons_append, List.nil_append, minAlts]
          rw [if_pos ⟨⟨dc_ge0 _ hB, (dc_le5 _ hB).mpr hb5⟩, dc_isDigit _ hC⟩,
            if_pos (dc_isDigit _ hB), dc_digitVal _ hB, dc_digitVal _ hC]
          rfl
        by_cases hx : mi % 10 = 6 ∧ sec / 10 ≤ 1
        · have hsec : sAlts (digitChar (mi % 10) :: pad2c sec) =
              (60 + sec / 10, [digitChar (sec % 10)]) ::
                (if ('0' ≤ digitChar (mi % 10) ∧ digitChar (mi % 10) ≤ '5') ∧
                    (digitChar (sec / 10)).isDigit = true then
                  [(10 * (mi % 10) + sec / 10, [digitChar (sec % 10)])] else []) ++
                [(mi % 10, pad2c sec)] := by
            simp only [pad2c, List.cons_append, List.nil_append, sAlts]
            rw [if_pos ⟨(dc_eq6 _ hD).mpr hx.1, dc_ge0 _ hE, (dc_le1 _ hE).mpr hx.2⟩,
              if_pos (dc_isDigit _ hD), dc_digitVal _ hD, dc_digitVal _ hE]
            rfl
          refine ⟨h / 10, 10 * (h % 10) + mi / 10, 60 + sec / 10, [digitChar (sec % 10)], ?_, by simp⟩
          simp only [List.findSome?, hmin, hsec, List.cons_append]
        · by_cases hy : mi % 10 ≤ 5
          · have hsec : sAlts (digitChar (mi % 10) :: pad2c sec) =
                (10 * (mi % 10) + sec / 10, [digitChar (sec % 10)]) ::
                  [(mi % 10, pad2c sec)] := by
              simp only [pad2c, List.cons_append, List.nil_append, sAlts]
              rw [if_neg (fun hcon =>
                  absurd ⟨(dc_eq6 _ hD).mp hcon.1, (dc_le1 _ hE).mp hcon.2.2⟩ hx),
                if_pos ⟨⟨dc_ge0 _ hD, (dc_le5 _ hD).mpr hy⟩, dc_isDigit _ hE⟩,
                if_pos (dc_isDigit _ hD), dc_digitVal _ hD, dc_digitVal _ hE]
              rfl
            refine ⟨h / 10, 10 * (h % 10) + mi / 10, 10 * (mi % 10) + sec / 10,
              [digitChar (sec % 10)], ?_, by simp⟩
            simp only [List.findSome?, hmin, hsec]
          · have hsec : sAlts (digitChar (mi % 10) :: pad2c sec) =
                [(mi % 10, pad2c sec)] := by
              simp only [pad2c, List.cons_append, List.nil_append, sAlts]
              rw [if_neg (fun hcon =>
                  absurd ⟨(dc_eq6 _ hD).mp hcon.1, (dc_le1 _ hE).mp hcon.2.2⟩ hx),
                if_neg (fun hcon => absurd ((dc_le5 _ hD).mp hcon.1.2) hy),
                if_pos (dc_isDigit _ hD), dc_digitVal _ hD]
              rfl
            refine ⟨h / 10, 10 * (h % 10) + mi / 10, mi % 10, pad2c sec, ?_, by simp [pad2c]⟩
            simp only [List.findSome?, hmin, hsec]
      · have hmin : minAlts (digitChar (h % 10) :: (pad2c mi ++ pad2c sec)) =
            [(h % 10, pad2c mi ++ pad2c sec)] := by
          simp only [pad2c, List.cons_append, List.nil_append, minAlts]
          rw [if_neg (fun hcon => absurd ((dc_le5 _ hB).mp hcon.1.2) hb5),
            if_pos (dc_isDigit _ hB), dc_digitVal _ hB]
          rfl
        by_cases hx : 60 ≤ mi ∧ mi ≤ 61
        · have hsec : sAlts (pad2c mi ++ pad2c sec) =
              (60 + mi % 10, pad2c sec) ::
                (if ('0' ≤ digitChar (mi / 10) ∧ digitChar (mi / 10) ≤ '5') ∧
                    (digitChar (mi % 10)).isDigit = true then
                  [(10 * (mi / 10) + mi % 10, pad2c sec)] else []) ++
                [(mi / 10, digitChar (mi % 10) :: pad2c sec)] := by
            simp only [pad2c, List.cons_append, List.nil_append, sAlts]
            rw [if_pos ⟨(dc_eq6 _ hC).mpr (by omega), dc_ge0 _ hD, (dc_le1 _ hD).mpr (by omega)⟩,
              if_pos (dc_isDigit _ hC), dc_digitVal _ hC, dc_digitVal _ hD]
            rfl
          refine ⟨h / 10, h % 10, 60 + mi % 10, pad2c sec, ?_, by simp [pad2c]⟩
          simp only [List.findSome?, hmin, hsec, List.cons_append]
        · by_cases hy : mi ≤ 59
          · have hsec : sAlts (pad2c mi ++ pad2c sec) =
                (10 * (mi / 10) + mi % 10, pad2c sec) ::
                  [(mi / 10, digitChar (mi % 10) :: pad2c sec)] := by
              simp only [pad2c, List.cons_append, List.nil_append, sAlts]
              rw [if_neg (fun hcon => absurd ((dc_eq6 _ hC).mp hcon.1) (by
                    have := (dc_le1 _ hD).mp hcon.2.2
                    omega)),
                if_pos ⟨⟨dc_ge0 _ hC, (dc_le5 _ hC).mpr (by omega)⟩, dc_isDigit _ hD⟩,
                if_pos (dc_isDigit _ hC), dc_digitVal _ hC, dc_digitVal _ hD]
              rfl
            refine ⟨h / 10, h % 10, 10 * (mi / 10) + mi % 10, pad2c sec, ?_, by simp [pad2c]⟩
            simp only [List.findSome?, hmin, hsec]
          · have hsec : sAlts (pad2c mi ++ pad2c sec) =
                [(mi / 10, digitChar (mi % 10) :: pad2c sec)] := by
              simp only [pad2c, List.cons_append, List.nil_append, sAlts]
              rw [if_neg (fun hcon => absurd ((dc_eq6 _ hC).mp hcon.1) (by
                    have := (dc_le1 _ hD).mp hcon.2.2
                    omega)),
                if_neg (fun hcon => absurd ((dc_le5 _ hC).mp hcon.1.2) (by omega)),
                if_pos (dc_isDigit _ hC), dc_digitVal _ hC]
              rfl
            refine ⟨h / 10, h % 10, mi / 10, digitChar (mi % 10) :: pad2c sec, ?_, by simp⟩
            simp only [List.findSome?, hmin, hsec]

theorem findSome?_cons_eq {α β : Type} (f : α → Option β) (a : α) (l : List α) :
    (a :: l).findSome? f = ((f a).orElse fun _ => l.findSome? f) := by
  simp only [List.findSome?]
  cases f a <;> rfl

theorem orElse_none_eq {β : Type} (o : Option β) : (o.orElse fun _ => none) = o := by
  cases o <;> rfl

/-- The literal of the format matches an actual `'T'`. -/
theorem afterDT_T (xs : List Char) : afterDT ('T' :: xs) = timeFirst xs := by
  simp [afterDT]

/-- The literal of the format does not match a digit. -/
theorem afterDT_digit (k : Nat) (hk : k < 10) (xs : List Char) :
    afterDT (digitChar k :: xs) = none := by
  simp only [afterDT]
  rw [if_neg (dc_not_T _ hk)]

/-- A day-group choice that starts three digits before the literal `T`
cannot lead to a match: every alternative leaves a digit where `T` is
required. -/
theorem dChain_digit3 (mv x y z : Nat) (_hx : x < 10) (hy : y < 10) (hz : z < 10)
    (t : List Char) :
    ((dAlts (digitChar x :: digitChar y :: digitChar z :: 'T' :: t)).findSome? fun ds =>
      (afterDT ds.2).map fun r => (mv, ds.1, r.1, r.2.1, r.2.2.1, r.2.2.2)) = none := by
  have h1 := afterDT_digit z hz ('T' :: t)
  have h2 := afterDT_digit y hy (digitChar z :: 'T' :: t)
  simp only [dAlts]
  split_ifs <;> simp [List.findSome?, h1, h2]

/-- The day-group search on a canonical two-digit day followed by the
literal `T`: for `1 ≤ d ≤ 31` the first (two-character) alternative aligns
with the `T` and the rest of the match is `timeFirst`; otherwise no
alternative aligns and the chain fails. -/
theorem dChain_pad (mv d : Nat) (hd : d < 100) (t : List Char) :
    ((dAlts (pad2c d ++ 'T' :: t)).findSome? fun ds =>
        (afterDT ds.2).map fun r => (mv, ds.1, r.1, r.2.1, r.2.2.1, r.2.2.2))
      = if 1 ≤ d ∧ d ≤ 31 then
          (timeFirst t).map (fun r => (mv, d, r.1, r.2.1, r.2.2.1, r.2.2.2))
        else none := by
  have hC : d / 10 < 10 := by omega
  have hD : d % 10 < 10 := by omega
  have hdig1 := afterDT_digit (d % 10) hD ('T' :: t)
  by_cases h30 : 30 ≤ d ∧ d ≤ 31
  · have hdalts : dAlts (pad2c d ++ 'T' :: t) =
        [(30 + d % 10, 'T' :: t), (d / 10, digitChar (d % 10) :: 'T' :: t)] := by
      simp only [pad2c, List.cons_append, List.nil_append, dAlts]
      rw [if_pos ⟨(dc_eq3 _ hC).mpr (by omega), dc_ge0 _ hD, (dc_le1 _ hD).mpr (by omega)⟩,
        if_neg (fun hcon => absurd ((dc_le2 _ hC).mp hcon.1.2) (by omega)),
        if_neg (fun hcon => absurd ((dc_eq0 _ hC).mp hcon.1) (by omega)),
        if_pos ⟨(dc_ge1 _ hC).mpr (by omega), dc_le9 _ hC⟩,
        if_neg (fun hcon => absurd hcon.1 (dc_ne_space _ hC)),
        dc_digitVal _ hC, dc_digitVal _ hD]
      rfl
    rw [if_pos (by omega : 1 ≤ d ∧ d ≤ 31), hdalts, findSome?_cons_eq, findSome?_cons_eq]
    have e : 30 + d % 10 = d := by omega
    simp only [e, afterDT_T, hdig1, Option.map_none, List.findSome?]
    exact orElse_none_eq _
  · by_cases h10 : 10 ≤ d ∧ d ≤ 29
    · have hdalts : dAlts (pad2c d ++ 'T' :: t) =
          [(10 * (d / 10) + d % 10, 'T' :: t), (d / 10, digitChar (d % 10) :: 'T' :: t)] := by
        simp only [pad2c, List.cons_append, List.nil_append, dAlts]
        rw [if_neg (fun hcon => absurd ((dc_eq3 _ hC).mp hcon.1) (by
              have := (dc_le1 _ hD).mp hcon.2.2
              omega)),
          if_pos ⟨⟨(dc_ge1 _ hC).mpr (by omega), (dc_le2 _ hC).mpr (by omega)⟩, dc_isDigit _ hD⟩,
          if_neg (fun hcon => absurd ((dc_eq0 _ hC).mp hcon.1) (by omega)),
          if_pos ⟨(dc_ge1 _ hC).mpr (by omega), dc_le9 _ hC⟩,
          if_neg (fun hcon => absurd hcon.1 (dc_ne_space _ hC)),
          dc_digitVal _ hC, dc_digitVal _ hD]
        rfl
      rw [if_pos (by omega : 1 ≤ d ∧ d ≤ 31), hdalts, findSome?_cons_eq, findSome?_cons_eq]
      have e : 10 * (d / 10) + d % 10 = d := by omega
      simp only [e, afterDT_T, hdig1, Option.map_none, List.findSome?]
      exact orElse_none_eq _
    · by_cases h1 : 1 ≤ d ∧ d ≤ 9
      · have hdalts : dAlts (pad2c d ++ 'T' :: t) = [(d % 10, 'T' :: t)] := by
          simp only [pad2c, List.cons_append, List.nil_append, dAlts]
          rw [if_neg (fun hcon => absurd ((dc_eq3 _ hC).mp hcon.1) (by omega)),
            if_neg (fun hcon => absurd ((dc_ge1 _ hC).mp hcon.1.1) (by omega)),
            if_pos ⟨(dc_eq0 _ hC).mpr (by omega), (dc_ge1 _ hD).mpr (by omega), dc_le9 _ hD⟩,
            if_neg (fun hcon => absurd ((dc_ge1 _ hC).mp hcon.1) (by omega)),
            if_neg (fun hcon => absurd hcon.1 (dc_ne_space _ hC)),
            dc_digitVal _ hD]
          rfl
        rw [if_pos (by omega : 1 ≤ d ∧ d ≤ 31), hdalts, findSome?_cons_eq]
        have e : d % 10 = d := by omega
        simp only [e, afterDT_T, List.findSome?]
        exact orElse_none_eq _
      · by_cases h0 : d = 0
        · have hdalts : dAlts (pad2c d ++ 'T' :: t) = [] := by
            simp only [pad2c, List.cons_append, List.nil_append, dAlts]
            rw [if_neg (fun hcon => absurd ((dc_eq3 _ hC).mp hcon.1) (by omega)),
              if_neg (fun hcon => absurd ((dc_ge1 _ hC).mp hcon.1.1) (by omega)),
              if_neg (fun hcon => absurd ((dc_ge1 _ hD).mp hcon.2.1) (by omega)),
              if_neg (fun hcon => absurd ((dc_ge1 _ hC).mp hcon.1) (by omega)),
              if_neg (fun hcon => absurd hcon.1 (dc_ne_space _ hC))]
            rfl
          rw [if_neg (by omega), hdalts]
          rfl
        · -- 32 ≤ d ≤ 99: only the one-character alternative fires, misaligned
          have hdalts : dAlts (pad2c d ++ 'T' :: t) =
              [(d / 10, digitChar (d % 10) :: 'T' :: t)] := by
            simp only [pad2c, List.cons_append, List.nil_append, dAlts]
            rw [if_neg (fun hcon => absurd ((dc_le1 _ hD).mp hcon.2.2) (by
                  have := (dc_eq3 _ hC).mp hcon.1
                  omega)),
              if_neg (fun hcon => absurd ((dc_le2 _ hC).mp hcon.1.2) (by omega)),
              if_neg (fun hcon => absurd ((dc_eq0 _ hC).mp hcon.1) (by omega)),
              if_pos ⟨(dc_ge1 _ hC).mpr (by omega), dc_le9 _ hC⟩,
              if_neg (fun hcon => absurd hcon.1 (dc_ne_space _ hC)),
              dc_digitVal _ hC]
            rfl
          rw [if_neg (by omega), hdalts, findSome?_cons_eq]
          simp only [hdig1, Option.map_none, List.findSome?]
          rfl

theorem none_orElse_eq {β : Type} (f : Unit → Option β) :
    (Option.orElse none f) = f () := rfl

/-- The full month-day search on a canonical `MMDD` block followed by the
literal `T`: either the month and day two-character alternatives align (in
which case the match continues with `timeFirst` and extracts exactly
`(m, d)`), or the whole search fails. -/
theorem mdFirst_pad (m d : Nat) (hm : m < 100) (hd : d < 100) (t : List Char) :
    mdFirst (pad2c m ++ (pad2c d ++ 'T' :: t))
        = if 1 ≤ m ∧ m ≤ 12 ∧ 1 ≤ d ∧ d ≤ 31 then
            (timeFirst t).map (fun r => (m, d, r.1, r.2.1, r.2.2.1, r.2.2.2))
          else none := by
  have hA : m / 10 < 10 := by omega
  have hB : m % 10 < 10 := by omega
  have hC : d / 10 < 10 := by omega
  have hD : d % 10 < 10 := by omega
  unfold mdFirst
  by_cases hm12 : 10 ≤ m ∧ m ≤ 12
  · have hmalts : mAlts (pad2c m ++ (pad2c d ++ 'T' :: t)) =
        [(10 + m % 10, pad2c d ++ 'T' :: t),
         (m / 10, digitChar (m % 10) :: (pad2c d ++ 'T' :: t))] := by
      simp only [pad2c, List.cons_append, List.nil_append, mAlts]
      rw [if_pos ⟨(dc_eq1 _ hA).mpr (by omega), dc_ge0 _ hB, (dc_le2 _ hB).mpr (by omega)⟩,
        if_neg (fun hcon => absurd ((dc_eq0 _ hA).mp hcon.1) (by omega)),
        if_pos ⟨(dc_ge1 _ hA).mpr (by omega), dc_le9 _ hA⟩,
        dc_digitVal _ hA, dc_digitVal _ hB]
      rfl
    rw [hmalts, findSome?_cons_eq, findSome?_cons_eq]
    have e : 10 + m % 10 = m := by omega
    have hdc := dChain_pad m d hd t
    have hd3 : ((dAlts (digitChar (m % 10) :: (pad2c d ++ 'T' :: t))).findSome? fun ds =>
        (afterDT ds.2).map fun r => (m / 10, ds.1, r.1, r.2.1, r.2.2.1, r.2.2.2)) = none := by
      have := dChain_digit3 (m / 10) (m % 10) (d / 10) (d % 10) hB hC hD t
      simpa [pad2c] using this
    simp only [e, hdc, hd3, List.findSome?, none_orElse_eq]
    by_cases hd31 : 1 ≤ d ∧ d ≤ 31
    · rw [if_pos hd31, if_pos ⟨by omega, by omega, hd31.1, hd31.2⟩]
      exact orElse_none_eq _
    · rw [if_neg hd31, if_neg (fun hcon => hd31 ⟨hcon.2.2.1, hcon.2.2.2⟩)]
      rfl
  · by_cases hm9 : 1 ≤ m ∧ m ≤ 9
    · have hmalts : mAlts (pad2c m ++ (pad2c d ++ 'T' :: t)) =
          [(m % 10, pad2c d ++ 'T' :: t)] := by
        simp only [pad2c, List.cons_append, List.nil_append, mAlts]
        rw [if_neg (fun hcon => absurd ((dc_eq1 _ hA).mp hcon.1) (by omega)),
          if_pos ⟨(dc_eq0 _ hA).mpr (by omega), (dc_ge1 _ hB).mpr (by omega), dc_le9 _ hB⟩,
          if_neg (fun hcon => absurd ((dc_ge1 _ hA).mp hcon.1) (by omega)),
          dc_digitVal _ hB]
        rfl
      rw [hmalts, findSome?_cons_eq]
      have e : m % 10 = m := by omega
      have hdc := dChain_pad m d hd t
      simp only [e, hdc, List.findSome?]
      by_cases hd31 : 1 ≤ d ∧ d ≤ 31
      · rw [if_pos hd31, if_pos ⟨by omega, by omega, hd31.1, hd31.2⟩]
        exact orElse_none_eq _
      · rw [if_neg hd31, if_neg (fun hcon => hd31 ⟨hcon.2.2.1, hcon.2.2.2⟩)]
        rfl
    · by_cases hm0 : m = 0
      · have hmalts : mAlts (pad2c m ++ (pad2c d ++ 'T' :: t)) = [] := by
          simp only [pad2c, List.cons_append, List.nil_append, mAlts]
          rw [if_neg (fun hcon => absurd ((dc_eq1 _ hA).mp hcon.1) (by omega)),
            if_neg (fun hcon => absurd ((dc_ge1 _ hB).mp hcon.2.1) (by omega)),
            if_neg (fun hcon => absurd ((dc_ge1 _ hA).mp hcon.1) (by omega))]
          rfl
        rw [hmalts, if_neg (fun hcon => by
          have := hcon.1
          omega)]
        rfl
      · -- 13 ≤ m ≤ 99: only the one-character month alternative fires,
        -- leaving three digits before the literal `T`
        have hmalts : mAlts (pad2c m ++ (pad2c d ++ 'T' :: t)) =
            [(m / 10, digitChar (m % 10) :: (pad2c d ++ 'T' :: t))] := by
          simp only [pad2c, List.cons_append, List.nil_append, mAlts]
          rw [if_neg (fun hcon => by
              have h1 := (dc_eq1 _ hA).mp hcon.1
              have h2 := (dc_le2 _ hB).mp hcon.2.2
              omega),
            if_neg (fun hcon => absurd ((dc_eq0 _ hA).mp hcon.1) (by omega)),
            if_pos ⟨(dc_ge1 _ hA).mpr (by omega), dc_le9 _ hA⟩,
            dc_digitVal _ hA]
          rfl
        rw [hmalts, findSome?_cons_eq]
        have hd3 : ((dAlts (digitChar (m % 10) :: (pad2c d ++ 'T' :: t))).findSome? fun ds =>
            (afterDT ds.2).map fun r =>
              (m / 10, ds.1, r.1, r.2.1, r.2.2.1, r.2.2.2)) = none := by
          have := dChain_digit3 (m / 10) (m % 10) (d / 10) (d % 10) hB hC hD t
          simpa [pad2c] using this
        simp only [hd3, List.findSome?]
        rw [if_neg (fun hcon => by
          have h1 := hcon.1
          have h2 := hcon.2.1
          omega)]
        rfl

theorem char_digit_toNat (c : Char) (h : c.isDigit = true) :
    48 ≤ c.toNat ∧ c.toNat ≤ 57 := by
  simp [Char.isDigit] at h
  obtain ⟨h1, h2⟩ := h
  have n1 : (48 : UInt32).toNat ≤ c.val.toNat := h1
  have n2 : c.val.toNat ≤ (57 : UInt32).toNat := h2
  have e1 : (48 : UInt32).toNat = 48 := rfl
  have e2 : (57 : UInt32).toNat = 57 := rfl
  unfold Char.toNat
  omega

theorem digitVal_lt10 (c : Char) (h : c.isDigit = true) : digitVal c < 10 := by
  have := char_digit_toNat c h
  unfold digitVal
  omega

theorem digitChar_digitVal (c : Char) (h : c.isDigit = true) : digitChar (digitVal c) = c := by
  have := char_digit_toNat c h
  unfold digitChar digitVal
  have h2 : 48 + (c.toNat - 48) = c.toNat := by omega
  rw [h2]
  exact Char.ofNat_toNat c

/-- Every token matching the `YYYYMMDDTHHMMSS` digit shape is the canonical
rendering of the (bounded) field values it denotes. -/
theorem digitShape_eq_render (s : String) (hsh : digitShapeYYYYMMDDTHHMMSS s = true) :
    (decodeYYYYMMDDTHHMMSS s).1 < 10000 ∧ (decodeYYYYMMDDTHHMMSS s).2.1 < 100 ∧
      (decodeYYYYMMDDTHHMMSS s).2.2.1 < 100 ∧ (decodeYYYYMMDDTHHMMSS s).2.2.2.1 < 100 ∧
      (decodeYYYYMMDDTHHMMSS s).2.2.2.2.1 < 100 ∧ (decodeYYYYMMDDTHHMMSS s).2.2.2.2.2 < 100 ∧
      s = renderYMDTHMS (decodeYYYYMMDDTHHMMSS s).1 (decodeYYYYMMDDTHHMMSS s).2.1
        (decodeYYYYMMDDTHHMMSS s).2.2.1 (decodeYYYYMMDDTHHMMSS s).2.2.2.1
        (decodeYYYYMMDDTHHMMSS s).2.2.2.2.1 (decodeYYYYMMDDTHHMMSS s).2.2.2.2.2 := by
  obtain ⟨l⟩ := s
  rcases l with _|⟨y1, _|⟨y2, _|⟨y3, _|⟨y4, _|⟨m1, _|⟨m2, _|⟨d1, _|⟨d2, _|⟨tc, _|⟨h1, _|⟨h2,
    _|⟨mi1, _|⟨mi2, _|⟨s1, _|⟨s2, _|⟨e1, l'⟩⟩⟩⟩⟩⟩⟩⟩⟩⟩⟩⟩⟩⟩⟩⟩ <;>
    simp only [digitShapeYYYYMMDDTHHMMSS] at hsh <;>
    try exact absurd hsh (by decide)
  simp only [List.all_cons, List.all_nil, Bool.and_true, decide_eq_true_eq,
    Bool.and_eq_true] at hsh
  obtain ⟨ht, ⟨hy1, hy2, hy3, hy4, hm1, hm2, hd1, hd2, hh1, hh2, hmi1, hmi2, hs1, hs2⟩⟩ := hsh
  subst ht
  have qy1 := digitVal_lt10 _ hy1
  have qy2 := digitVal_lt10 _ hy2
  have qy3 := digitVal_lt10 _ hy3
  have qy4 := digitVal_lt10 _ hy4
  have qm1 := digitVal_lt10 _ hm1
  have qm2 := digitVal_lt10 _ hm2
  have qd1 := digitVal_lt10 _ hd1
  have qd2 := digitVal_lt10 _ hd2
  have qh1 := digitVal_lt10 _ hh1
  have qh2 := digitVal_lt10 _ hh2
  have qmi1 := digitVal_lt10 _ hmi1
  have qmi2 := digitVal_lt10 _ hmi2
  have qs1 := digitVal_lt10 _ hs1
  have qs2 := digitVal_lt10 _ hs2
  simp only [decodeYYYYMMDDTHHMMSS]
  refine ⟨by omega, by omega, by omega, by omega, by omega, by omega, ?_⟩
  simp only [renderYMDTHMS, pad4c, pad2c, List.cons_append, List.nil_append]
  have ey1 : (1000 * digitVal y1 + 100 * digitVal y2 + 10 * digitVal y3 + digitVal y4) / 1000
      = digitVal y1 := by omega
  have ey2 : (1000 * digitVal y1 + 100 * digitVal y2 + 10 * digitVal y3 + digitVal y4) / 100 % 10
      = digitVal y2 := by omega
  have ey3 : (1000 * digitVal y1 + 100 * digitVal y2 + 10 * digitVal y3 + digitVal y4) / 10 % 10
      = digitVal y3 := by omega
  have ey4 : (1000 * digitVal y1 + 100 * digitVal y2 + 10 * digitVal y3 + digitVal y4) % 10
      = digitVal y4 := by omega
  have em1 : (10 * digitVal m1 + digitVal m2) / 10 = digitVal m1 := by omega
  have em2 : (10 * digitVal m1 + digitVal m2) % 10 = digitVal m2 := by omega
  have ed1 : (10 * digitVal d1 + digitVal d2) / 10 = digitVal d1 := by omega
  have ed2 : (10 * digitVal d1 + digitVal d2) % 10 = digitVal d2 := by omega
  have eh1 : (10 * digitVal h1 + digitVal h2) / 10 = digitVal h1 := by omega
  have eh2 : (10 * digitVal h1 + digitVal h2) % 10 = digitVal h2 := by omega
  have emi1 : (10 * digitVal mi1 + digitVal mi2) / 10 = digitVal mi1 := by omega
  have emi2 : (10 * digitVal mi1 + digitVal mi2) % 10 = digitVal mi2 := by omega
  have es1 : (10 * digitVal s1 + digitVal s2) / 10 = digitVal s1 := by omega
  have es2 : (10 * digitVal s1 + digitVal s2) % 10 = digitVal s2 := by omega
  rw [ey1, ey2, ey3, ey4, em1, em2, ed1, ed2, eh1, eh2, emi1, emi2, es1, es2,
    digitChar_digitVal _ hy1, digitChar_digitVal _ hy2, digitChar_digitVal _ hy3,
    digitChar_digitVal _ hy4, digitChar_digitVal _ hm1, digitChar_digitVal _ hm2,
    digitChar_digitVal _ hd1, digitChar_digitVal _ hd2, digitChar_digitVal _ hh1,
    digitChar_digitVal _ hh2, digitChar_digitVal _ hmi1, digitChar_digitVal _ hmi2,
    digitChar_digitVal _ hs1, digitChar_digitVal _ hs2]
  rfl

/-- On a canonical digit-shaped token, `strptime` fails whenever the denoted
field values do not pass the `datetime` range checks. -/
theorem strptime_render_invalid (y m d h mi sec : Nat)
    (hy : y < 10000) (hm : m < 100) (hd : d < 100) (hh : h < 100) (hmi : mi < 100)
    (hs : sec < 100) (hv : ¬ datetimeValid y m d h mi sec) :
    strptime_YmdTHMS (renderYMDTHMS y m d h mi sec) = none := by
  unfold strptime_YmdTHMS
  have hdata : (renderYMDTHMS y m d h mi sec).data
      = pad4c y ++ (pad2c m ++ (pad2c d ++ 'T' :: (pad2c h ++ (pad2c mi ++ pad2c sec)))) := rfl
  rw [hdata]
  simp only [yParse_pad4 y hy]
  have hmd := mdFirst_pad m d hm hd (pad2c h ++ (pad2c mi ++ pad2c sec))
  by_cases hcond : 1 ≤ m ∧ m ≤ 12 ∧ 1 ≤ d ∧ d ≤ 31
  · rw [if_pos hcond] at hmd
    rcases timeFirst_cases h mi sec hh hmi hs with ⟨-, ht⟩ | ⟨-, a, b, c, r, ht, hr⟩
    · simp only [hmd, ht, Option.map_some']
      simp [mkValidDatetime, hv]
    · simp only [hmd, ht, Option.map_some']
      simp [hr]
  · rw [if_neg hcond] at hmd
    simp [hmd]

/-- C10: date validation in `GRS.metadata` is calendar-aware — for every
input path whose basename splits into exactly nine tokens and whose third
token matches the `YYYYMMDDTHHMMSS` digit shape but denotes an impossible
calendar date or time (the `datetime` range checks fail on the denoted
fields), the parser fails, with the very same date-parse error a malformed
token (such as `'20210521'` alone) produces. -/
theorem C10_thm (p t1 t2 tok t4 t5 t6 t7 t8 t9 : String)
    (hsh : digitShapeYYYYMMDDTHHMMSS tok = true)
    (hv : ¬ datetimeValid (decodeYYYYMMDDTHHMMSS tok).1 (decodeYYYYMMDDTHHMMSS tok).2.1
      (decodeYYYYMMDDTHHMMSS tok).2.2.1 (decodeYYYYMMDDTHHMMSS tok).2.2.2.1
      (decodeYYYYMMDDTHHMMSS tok).2.2.2.2.1 (decodeYYYYMMDDTHHMMSS tok).2.2.2.2.2)
    (hsplit : pySplit '_' (pyBasename p) = [t1, t2, tok, t4, t5, t6, t7, t8, t9]) :
    GRS_metadata p = Except.error MetaError.dateParseError ∧
      GRS_metadata p
        = GRS_metadata "S2A_MSIL1C_20210521_N0300_R138_T23KMQ_20210521T163353_cc020_v15.nc" := by
  obtain ⟨b1, b2, b3, b4, b5, b6, heq⟩ := digitShape_eq_render tok hsh
  have hnone : strptime_YmdTHMS tok = none := by
    rw [heq]
    exact strptime_render_invalid _ _ _ _ _ _ b1 b2 b3 b4 b5 b6 hv
  have h1 : GRS_metadata p = Except.error MetaError.dateParseError :=
    GRS_metadataCore_date_err p (pyBasename p) t1 t2 tok t4 t5 t6 t7 t8 t9 hsplit hnone
  have h2 : GRS_metadata "S2A_MSIL1C_20210521_N0300_R138_T23KMQ_20210521T163353_cc020_v15.nc"
      = Except.error MetaError.dateParseError := rfl
  exact ⟨h1, by rw [h1, h2]⟩

/-- C10 (witness): February 30 — the token `'20210230T000000'` matches the
digit shape, the denoted date is impossible, and the parser rejects it with
the same error as the malformed token `'20210521'`. -/
theorem C10_witness :
    GRS_metadata "S2A_MSIL1C_20210230T000000_N0300_R138_T23KMQ_X_cc020_v15.nc"
        = Except.error MetaError.dateParseError ∧
      GRS_metadata "S2A_MSIL1C_20210230T000000_N0300_R138_T23KMQ_X_cc020_v15.nc"
        = GRS_metadata "S2A_MSIL1C_20210521_N0300_R138_T23KMQ_20210521T163353_cc020_v15.nc" :=
  C10_thm "S2A_MSIL1C_20210230T000000_N0300_R138_T23KMQ_X_cc020_v15.nc"
    "S2A" "MSIL1C" "20210230T000000" "N0300" "R138" "T23KMQ" "X" "cc020" "v15.nc"
    (by decide) (by decide) (by decide)

/-- On a canonical digit-shaped token, `strptime` succeeds and extracts
exactly the denoted field values whenever those pass the `datetime` range
checks. -/
theorem strptime_render_valid (y m d h mi sec : Nat)
    (hy : y < 10000) (hm : m < 100) (hd : d < 100) (hh : h < 100) (hmi : mi < 100)
    (hs : sec < 100) (hv : datetimeValid y m d h mi sec) :
    strptime_YmdTHMS (renderYMDTHMS y m d h mi sec) = some ⟨y, m, d, h, mi, sec⟩ := by
  obtain ⟨hv1, hv2, hv3, hv4, hv5, hv6, hv7, hv8, hv9⟩ := hv
  unfold strptime_YmdTHMS
  have hdata : (renderYMDTHMS y m d h mi sec).data
      = pad4c y ++ (pad2c m ++ (pad2c d ++ 'T' :: (pad2c h ++ (pad2c mi ++ pad2c sec)))) := rfl
  rw [hdata]
  simp only [yParse_pad4 y hy]
  have hmd := mdFirst_pad m d hm hd (pad2c h ++ (pad2c mi ++ pad2c sec))
  rw [if_pos ⟨hv3, hv4, hv5, le_trans hv6 (daysInMonth_le_31 y m)⟩] at hmd
  rcases timeFirst_cases h mi sec hh hmi hs with ⟨-, ht⟩ | ⟨hnb, -⟩
  · simp only [hmd, ht, Option.map_some']
    simp [mkValidDatetime,
      show datetimeValid y m d h mi sec from ⟨hv1, hv2, hv3, hv4, hv5, hv6, hv7, hv8, hv9⟩]
  · exact absurd ⟨hv7, hv8, by omega⟩ hnb

/-- A valid `YYYYMMDDTHHMMSS` timestamp in the spec's sense is a
digit-shaped token whose denoted fields pass the `datetime` range checks. -/
theorem specValid_decode (s : String) (h : specValidYYYYMMDDTHHMMSS s = true) :
    digitShapeYYYYMMDDTHHMMSS s = true ∧
      datetimeValid (decodeYYYYMMDDTHHMMSS s).1 (decodeYYYYMMDDTHHMMSS s).2.1
        (decodeYYYYMMDDTHHMMSS s).2.2.1 (decodeYYYYMMDDTHHMMSS s).2.2.2.1
        (decodeYYYYMMDDTHHMMSS s).2.2.2.2.1 (decodeYYYYMMDDTHHMMSS s).2.2.2.2.2 := by
  obtain ⟨l⟩ := s
  rcases l with _|⟨y1, _|⟨y2, _|⟨y3, _|⟨y4, _|⟨m1, _|⟨m2, _|⟨d1, _|⟨d2, _|⟨tc, _|⟨h1, _|⟨h2,
    _|⟨mi1, _|⟨mi2, _|⟨s1, _|⟨s2, _|⟨e1, l'⟩⟩⟩⟩⟩⟩⟩⟩⟩⟩⟩⟩⟩⟩⟩⟩ <;>
    simp only [specValidYYYYMMDDTHHMMSS] at h <;>
    try exact absurd h (by decide)
  rw [decide_eq_true_eq] at h
  obtain ⟨ht, hdigs, hvalid⟩ := h
  subst ht
  constructor
  · simp only [digitShapeYYYYMMDDTHHMMSS, decide_eq_true_eq]
    exact ⟨trivial, hdigs⟩
  · simp only [decodeYYYYMMDDTHHMMSS]
    exact hvalid

/-- C1 (amended): for every input path whose basename splits on `'_'` into
exactly nine tokens and whose third token is a valid `YYYYMMDDTHHMMSS`
timestamp, `GRS.metadata` returns a record whose `month` and `day` fields
are zero-padded two-digit strings matching the parsed date, whose `year`
field is the parsed year's decimal representation left-padded with zeros to
a minimum of two digits (four characters for ordinary years), and whose
positional fields exactly equal the corresponding filename tokens in
order. -/
theorem C1_thm (p t1 t2 t3 t4 t5 t6 t7 t8 t9 : String)
    (hvalid : specValidYYYYMMDDTHHMMSS t3 = true)
    (hsplit : pySplit '_' (pyBasename p) = [t1, t2, t3, t4, t5, t6, t7, t8, t9]) :
    GRS_metadata p = Except.ok
      { input_file := p
        basename := pyBasename p
        mission := t1
        prod_lvl := t2
        str_date := t3
        pydate := ⟨(decodeYYYYMMDDTHHMMSS t3).1, (decodeYYYYMMDDTHHMMSS t3).2.1,
          (decodeYYYYMMDDTHHMMSS t3).2.2.1, (decodeYYYYMMDDTHHMMSS t3).2.2.2.1,
          (decodeYYYYMMDDTHHMMSS t3).2.2.2.2.1, (decodeYYYYMMDDTHHMMSS t3).2.2.2.2.2⟩
        year := py02d (decodeYYYYMMDDTHHMMSS t3).1
        month := py02d (decodeYYYYMMDDTHHMMSS t3).2.1
        day := py02d (decodeYYYYMMDDTHHMMSS t3).2.2.1
        baseline_algo_version := t4
        relative_orbit := t5
        tile := t6
        product_discriminator := t7
        cloud_cover := t8
        grs_ver := t9 }
      ∧ (py02d (decodeYYYYMMDDTHHMMSS t3).2.1).length = 2
      ∧ (py02d (decodeYYYYMMDDTHHMMSS t3).2.2.1).length = 2 := by
  obtain ⟨hsh, hdtv⟩ := specValid_decode t3 hvalid
  obtain ⟨b1, b2, b3, b4, b5, b6, heq⟩ := digitShape_eq_render t3 hsh
  have hsome := strptime_render_valid (decodeYYYYMMDDTHHMMSS t3).1
    (decodeYYYYMMDDTHHMMSS t3).2.1 (decodeYYYYMMDDTHHMMSS t3).2.2.1
    (decodeYYYYMMDDTHHMMSS t3).2.2.2.1 (decodeYYYYMMDDTHHMMSS t3).2.2.2.2.1
    (decodeYYYYMMDDTHHMMSS t3).2.2.2.2.2 b1 b2 b3 b4 b5 b6 hdtv
  rw [← heq] at hsome
  obtain ⟨-, -, -, hm12, -, hdle, -, -, -⟩ := hdtv
  refine ⟨GRS_metadataCore_ok p (pyBasename p) t1 t2 t3 t4 t5 t6 t7 t8 t9 _ hsplit hsome,
    py02d_two_digit _ (by omega), py02d_two_digit _ ?_⟩
  have := daysInMonth_le_31 (decodeYYYYMMDDTHHMMSS t3).1 (decodeYYYYMMDDTHHMMSS t3).2.1
  omega

/-- C1 (witness): the amended theorem applied to the spec's example file. -/
theorem C1_witness :
    GRS_metadata
        "S2B_MSIL1C_20200101T090000_N0209_R065_T31UDQ_20200101T120000_cc015_v14.nc"
      = Except.ok
      { input_file := "S2B_MSIL1C_20200101T090000_N0209_R065_T31UDQ_20200101T120000_cc015_v14.nc"
        basename := "S2B_MSIL1C_20200101T090000_N0209_R065_T31UDQ_20200101T120000_cc015_v14.nc"
        mission := "S2B"
        prod_lvl := "MSIL1C"
        str_date := "20200101T090000"
        pydate := ⟨2020, 1, 1, 9, 0, 0⟩
        year := "2020"
        month := "01"
        day := "01"
        baseline_algo_version := "N0209"
        relative_orbit := "R065"
        tile := "T31UDQ"
        product_discriminator := "20200101T120000"
        cloud_cover := "cc015"
        grs_ver := "v14.nc" }
      ∧ ("01" : String).length = 2 ∧ ("01" : String).length = 2 :=
  C1_thm "S2B_MSIL1C_20200101T090000_N0209_R065_T31UDQ_20200101T120000_cc015_v14.nc"
    "S2B" "MSIL1C" "20200101T090000" "N0209" "R065" "T31UDQ" "20200101T120000"
    "cc015" "v14.nc" (by decide) (by decide)
